import Mathlib

/-! # WordIndex (wordindex-ranged): command line front end of `src/main.cpp`

A shallow embedding of namespace `prg` of `main.cpp`: the options record,
option parsing (`to_option`, `split_option`, `split_arguments`,
`process_options`), the text writers (`usage`, `author`, `nofile`, `version`),
the two `apply` overloads and `run`.

Modelling decisions
* `std::string` is a list of characters (`text`); a string literal is read as
  its list of characters.
* `std::ostream & os` is passed explicitly: a writer takes the text written so
  far and returns the text afterwards, together with its `int` result.
* A C++ function that may throw returns an `outcome`: a normal return, a
  `std::runtime_error`, a `std::logic_error`, or `undefined` when the code
  dereferences an empty `std::optional` (undefined behaviour in C++).
* The global `program_name` is a parameter; the compile time values used by
  `version` (`prg_VERSION`, `compiler()`, `__DATE__`, `__TIME__`) are fields of
  a `build` record.
-/

namespace prg

/-- The alias `using text = std::string`. -/
abbrev text := List Char

/-- The alias `using texts = std::vector<text>`. -/
abbrev texts := List text

/-- The alias `using maybe_text = std::optional<text>`. -/
abbrev maybe_text := Option text

/-- The output stream: the text written to it so far. -/
abbrev ostream := List Char

instance : Coe String text := ⟨String.toList⟩

/-- The record `struct options` with its default member initialisers. -/
structure options where
  help       : Bool := false
  verbose    : Bool := false
  version    : Bool := false
  author     : Bool := false
  frequency  : Bool := false
  ignorecase : Bool := false
  lowercase  : Bool := false
  reverse    : Bool := false
  summary    : Bool := false
  input      : text := []
  output     : text := []
  keywords   : text := []
deriving DecidableEq, Repr

/-- How a call of a function that may throw ends. -/
inductive outcome (α : Type) where
  | returns (a : α)
  | runtime_error (what : text)
  | logic_error (what : text)
  | undefined
deriving DecidableEq, Repr

/-- The values of `<cstdlib>`. -/
def EXIT_SUCCESS : Int := 0

/-- The values of `<cstdlib>`. -/
def EXIT_FAILURE : Int := 1

/-- The function `filename( text path )`: the identity. -/
def filename (path : text) : text := path

/-- The function `process_options( texts in, options & opt )`: the optional
error text, and the record `opt` as the call leaves it. -/
def process_options (in_ : texts) (opt : options) : maybe_text × options :=
  if opt.ignorecase then
    (some ("option --ignorecase is not yet supported" : text), opt)
  else if in_.length > 1 ∧ ¬ opt.output.isEmpty then
    (some ("only specify option '--output=filename' with a single input file" : text), opt)
  else
    (none, opt)

/-- The call `s.substr( pos, n )` for `pos <= s.size()`, which holds at every
call in the source. -/
def substr (s : text) (pos n : Nat) : text := (s.drop pos).take n

/-- The call `s.substr( pos )` for `pos <= s.size()`. -/
def substr_from (s : text) (pos : Nat) : text := s.drop pos

/-- The expression `s[0]`: the first character, and the terminating null
character when `s` is empty. -/
def at0 (s : text) : Char := s.headD (Char.ofNat 0)

/-- The call `s.rfind( c )`: the position of the last `c` in `s`, `none` for
`text::npos`. -/
def rfind : text → Char → Option Nat
  | [], _ => none
  | x :: xs, c =>
    match rfind xs c with
    | some i => some (i + 1)
    | none => if x = c then some 0 else none

/-- The function `to_option( text arg )`. -/
def to_option (arg : text) : maybe_text :=
  if substr arg 0 2 = "--" then some (substr_from arg 2)
  else if at0 arg = '-' ∨ at0 arg = '+' then some (substr_from arg 1)
  else none

/-- The function `to_value( text arg )`. -/
def to_value (arg : text) : maybe_text := some arg

/-- The function `split_option( text arg )`. -/
def split_option (arg : text) : maybe_text × maybe_text :=
  match rfind arg '=' with
  | none => (to_option arg, none)
  | some pos => (to_option (substr arg 0 pos), to_value (substr_from arg (pos + 1)))

/-- The local variables of `split_arguments` that live across the loop. -/
structure loop_state where
  option     : options := {}
  in_        : texts := []
  in_options : Bool := true
deriving DecidableEq, Repr

/-- The expression `*val`: the value of an engaged optional; a disengaged one
is undefined behaviour. -/
def deref (val : maybe_text) (k : text → outcome loop_state) : outcome loop_state :=
  match val with
  | some v => k v
  | none => .undefined

/-- One pass through the body of the `for` loop of `split_arguments`. -/
def split_arguments_body (st : loop_state) (arg : text) : outcome loop_state :=
  if st.in_options then
    match split_option arg with
    | (none, _) => .returns { st with in_options := false, in_ := st.in_ ++ [arg] }
    | (some opt, val) =>
      if opt = "" then .returns { st with in_options := false }
      else if opt = "h" ∨ "help" = opt then
        .returns { st with option := { st.option with help := true } }
      else if opt = "v" ∨ "verbose" = opt then
        .returns { st with option := { st.option with verbose := true } }
      else if "version" = opt then
        .returns { st with option := { st.option with version := true } }
      else if opt = "a" ∨ "author" = opt then
        .returns { st with option := { st.option with author := true } }
      else if opt = "f" ∨ "frequency" = opt then
        .returns { st with option := { st.option with frequency := true } }
      else if opt = "g" ∨ "ignorecase" = opt then
        .returns { st with option := { st.option with ignorecase := true } }
      else if opt = "l" ∨ "lowercase" = opt then
        .returns { st with option := { st.option with lowercase := true } }
      else if opt = "r" ∨ "reverse" = opt then
        .returns { st with option := { st.option with reverse := true } }
      else if opt = "s" ∨ "summary" = opt then
        .returns { st with option := { st.option with summary := true } }
      else if opt = "i" ∨ "input" = opt then
        deref val fun v => .returns { st with option := { st.option with input := v } }
      else if opt = "o" ∨ "output" = opt then
        deref val fun v => .returns { st with option := { st.option with output := v } }
      else if opt = "k" ∨ "keywords" = opt then
        deref val fun v => .returns { st with option := { st.option with keywords := v } }
      else .runtime_error ("unrecognised option '" ++ arg ++ "'")
  else .returns { st with in_ := st.in_ ++ [arg] }

/-- The `for` loop of `split_arguments` over the remaining arguments. -/
def split_arguments_loop : loop_state → texts → outcome loop_state
  | st, [] => .returns st
  | st, arg :: rest =>
    match split_arguments_body st arg with
    | .returns st1 => split_arguments_loop st1 rest
    | .runtime_error what => .runtime_error what
    | .logic_error what => .logic_error what
    | .undefined => .undefined

/-- The function `split_arguments( texts args )`. -/
def split_arguments (args : texts) : outcome (options × texts) :=
  match split_arguments_loop {} args with
  | .returns st =>
    match process_options st.in_ st.option with
    | (some result, _) => .logic_error ("Error: " ++ result)
    | (none, option) => .returns (option, st.in_)
  | .runtime_error what => .runtime_error what
  | .logic_error what => .logic_error what
  | .undefined => .undefined

/-- The compile time values that `version` prints: the macro `prg_VERSION`
(`"1.0.0"` unless the build defines it), the text of `compiler()`, and the
macros `__DATE__` and `__TIME__`. -/
structure build where
  prg_VERSION : text := "1.0.0"
  compiler    : text
  date        : text
  time        : text

/-- The function `usage( std::ostream & os )`. -/
def usage (program_name : text) (os : ostream) : ostream × Int :=
  (os ++
    "Usage: " ++ program_name ++ " [option...] [file...]\n" ++
    "\n" ++
    "  -h, --help          display this help and exit\n" ++
    "  -a, --author        report author's name and e-mail [no]\n" ++
    "      --version       report program and compiler versions [no]\n" ++
    "  -v, --verbose       report on processing steps [none]\n" ++
    "\n" ++
    "  -f, --frequency     also report word frequency as d.dd% (n) [no]\n" ++
    "  -g, --ignorecase    handle upper and lowercase as being equivalent [not implemented][no]\n" ++
    "  -l, --lowercase     transform words to lowercase [no]\n" ++
    "  -r, --reverse       only collect keyword occurrences, see --keywords [no]\n" ++
    "  -s, --summary       also report number of (key)words and references [no]\n" ++
    "\n" ++
    "  -i, --input=file    read filenames from given file [standard input or given filenames]\n" ++
    "  -o, --output=file   write output to given file [standard output]\n" ++
    "  -k, --keywords=file read keywords to skip (stopwords) from given file [none]\n" ++
    "\n" ++
    "Long options also may start with a plus, like: +help.\n" ++
    "\n" ++
    filename program_name ++ " creates an alphabetically sorted index of words present in the\n" ++
    "input files and it reports the lines where those words occur.\n" ++
    "Words that are marked as keywords are excluded (see option --keywords).\n" ++
    "Use option --reverse to only show the occurrences of keywords.\n" ++
    "\n" ++
    "Words can be read from standard input, or from files specified on the command\n" ++
    "line and from files that are specified in another file (see option --input).\n" ++
    "\n" ++
    "A file that specifies input filenames may look as follows:\n" ++
    "   # comment that extends to the end of the line ( ; also starts comment line)\n" ++
    "   file1.txt file2.txt\n" ++
    "   file3.txt\n" ++
    "\n" ++
    "Example:\n" ++
    "   echo hello world | " ++ filename program_name ++ " --summary --frequency\n" ++
    "       keywords  0\n" ++
    "          words  2\n" ++
    "     references  2\n" ++
    "\n" ++
    "          hello  50% (1)  1\n" ++
    "          world  50% (1)  1\n" ++
    "\n" ++
    "Example:\n" ++
    "   " ++ filename program_name ++ " --lowercase file.txt | sort -n -k2 -r \n" ++
    "This creates a list of lowercase words, sorted on frequency of occurrence.\n" ++
    "\n",
   EXIT_SUCCESS)

/-- The function `author( std::ostream & os )`. -/
def author (os : ostream) : ostream × Int :=
  (os ++ "\nAuthor: martin.moene at gmail.com", EXIT_SUCCESS)

/-- The function `nofile( std::ostream & os )`. -/
def nofile (program_name : text) (os : ostream) : ostream × Int :=
  (os ++ "\nUsage: " ++ program_name ++ " [option...] [file...]\n", EXIT_SUCCESS)

/-- The function `version( std::ostream & os )`. -/
def version (b : build) (program_name : text) (os : ostream) : ostream × Int :=
  (os ++ program_name ++ " v" ++ b.prg_VERSION ++ "\n" ++
    "Compiled with " ++ b.compiler ++ " on " ++ b.date ++ " at " ++ b.time ++ ".\n" ++
    "For more information, see https://github.com/martinmoene/wordindex-ranged.\n",
   EXIT_SUCCESS)

/-- The overload `apply( text in, options opt, std::ostream & os )`: the
placeholder that reports its input and returns 0. -/
def apply (in_ : text) (_opt : options) (os : ostream) : ostream × Int :=
  (os ++ "apply with in:'" ++ in_ ++ "' (options)\n", 0)

/-- The body of the `for` loop of `apply( texts in, ... )`: the header line,
then the per-input call, whose result is added to `count`. -/
def apply_texts_body (opt : options) (acc : ostream × Int) (input : text) : ostream × Int :=
  let r := apply input opt (acc.1 ++ input ++ " => " ++ opt.output ++ ":\n")
  (r.1, acc.2 + r.2)

/-- The overload `apply( texts in, options opt, std::ostream & os )`. The
result is `count != in.size()`, the `int` count converted to `std::size_t`
(64 bits) for the comparison and the `bool` converted to `int`. The count is a
sum of results of the single-input `apply`, which are all 0, so the `int`
addition never overflows. -/
def apply_texts (in_ : texts) (opt : options) (os : ostream) : ostream × Int :=
  let r := in_.foldl (apply_texts_body opt) (os, 0)
  (r.1, if (r.2 % 2 ^ 64).toNat ≠ in_.length % 2 ^ 64 then 1 else 0)

/-- The function `run( texts arguments, std::ostream & os )`: the stream
afterwards and the exit code; `none` when the call has undefined behaviour. -/
def run (b : build) (program_name : text) (arguments : texts) (os : ostream) :
    Option (ostream × Int) :=
  match split_arguments arguments with
  | .returns (option, in_) =>
    if option.help then some (usage program_name os)
    else if option.author then some (author os)
    else if option.version then some (version b program_name os)
    else if in_.length < 1 then some (nofile program_name os)
    else some (apply_texts in_ option os)
  | .runtime_error what =>
    some (os ++ program_name ++ ": " ++ what ++ " (try option --help).\n", EXIT_FAILURE)
  | .logic_error what =>
    some (os ++ program_name ++ ": " ++ what ++ " (try option --help).\n", EXIT_FAILURE)
  | .undefined => none

/-! ## Vocabulary of the properties -/

/-- The option name that `split_option` reads from an argument, if any. -/
def option_name (arg : text) : maybe_text := (split_option arg).1

/-- An argument that `split_arguments` reads as an option and after which it is
still reading options: `split_option` finds a name and the name is not empty
(the argument is neither a file name nor the end-of-options marker). -/
def reads_as_option (arg : text) : Bool :=
  match option_name arg with
  | some opt => decide (opt ≠ "")
  | none => false

/-- The three spellings that start an option, as in the usage text. -/
def option_starts : texts := ["--", "-", "+"]

/-- What `split_option` reads behind an option prefix: the name up to the last
`=` and the value after it. -/
def name_and_value (s : text) : maybe_text × maybe_text :=
  match rfind s '=' with
  | none => (some s, none)
  | some k => (some (s.take k), some (s.drop (k + 1)))

/-- The chain of comparisons of `split_arguments` on the option name, with the
result of each branch as a parameter. -/
def option_chain {α : Type} (opt : text)
    (stop help verbose version author frequency ignorecase lowercase reverse summary
      input output keywords unrecognised : α) : α :=
  if opt = "" then stop
  else if opt = "h" ∨ "help" = opt then help
  else if opt = "v" ∨ "verbose" = opt then verbose
  else if "version" = opt then version
  else if opt = "a" ∨ "author" = opt then author
  else if opt = "f" ∨ "frequency" = opt then frequency
  else if opt = "g" ∨ "ignorecase" = opt then ignorecase
  else if opt = "l" ∨ "lowercase" = opt then lowercase
  else if opt = "r" ∨ "reverse" = opt then reverse
  else if opt = "s" ∨ "summary" = opt then summary
  else if opt = "i" ∨ "input" = opt then input
  else if opt = "o" ∨ "output" = opt then output
  else if opt = "k" ∨ "keywords" = opt then keywords
  else unrecognised

/-- An option that `split_arguments` recognises and `run` accepts for
processing input: one of verbose, frequency, lowercase, reverse, summary, or
one of input, output, keywords written with its `=value`. Help, author,
version and ignorecase are not among them. -/
def accepted_option (arg : text) : Bool :=
  match split_option arg with
  | (some opt, val) =>
    decide (opt = "v" ∨ "verbose" = opt) || decide (opt = "f" ∨ "frequency" = opt) ||
    decide (opt = "l" ∨ "lowercase" = opt) || decide (opt = "r" ∨ "reverse" = opt) ||
    decide (opt = "s" ∨ "summary" = opt) ||
    (val.isSome && (decide (opt = "i" ∨ "input" = opt) || decide (opt = "o" ∨ "output" = opt) ||
      decide (opt = "k" ∨ "keywords" = opt)))
  | (none, _) => false

/-- An argument that names the output option. -/
def is_output_option (arg : text) : Bool :=
  match option_name arg with
  | some opt => decide (opt = "o" ∨ "output" = opt)
  | none => false

/-- The state of the loop of `split_arguments` while only accepted options
have been read: still in option mode, no input yet, and none of help, author,
version and ignorecase set. -/
def ready (st : loop_state) : Prop :=
  st.in_options = true ∧ st.in_ = [] ∧ st.option.help = false ∧ st.option.author = false ∧
    st.option.version = false ∧ st.option.ignorecase = false

instance (st : loop_state) : Decidable (ready st) := by
  unfold ready
  infer_instance

/-- A build used in the concrete examples. -/
def example_build : build :=
  { compiler := "gcc 12.1.0", date := "Jan  1 2022", time := "00:00:00" }

/-! ## Lemmas on `to_option` and `split_option` -/

theorem lit_dashdash : (("--" : String) : text) = ['-', '-'] := rfl

theorem to_option_dashdash (s : text) : to_option ('-' :: '-' :: s) = some s := by
  simp [to_option, substr, substr_from, lit_dashdash]

theorem to_option_dash (s : text) (hs : s.head? ≠ some '-') :
    to_option ('-' :: s) = some s := by
  cases s with
  | nil => simp [to_option, substr, substr_from, lit_dashdash, at0]
  | cons c t =>
    have hc : c ≠ '-' := by simpa using hs
    simp [to_option, substr, substr_from, lit_dashdash, at0, hc]

theorem to_option_plus (s : text) : to_option ('+' :: s) = some s := by
  cases s with
  | nil => simp [to_option, substr, substr_from, lit_dashdash, at0]
  | cons c t => simp [to_option, substr, substr_from, lit_dashdash, at0]

theorem to_option_none (arg : text) (h1 : arg.head? ≠ some '-') (h2 : arg.head? ≠ some '+') :
    to_option arg = none := by
  cases arg with
  | nil => simp [to_option, substr, lit_dashdash, at0]
  | cons c t =>
    have hc1 : c ≠ '-' := by simpa using h1
    have hc2 : c ≠ '+' := by simpa using h2
    cases t with
    | nil => simp [to_option, substr, lit_dashdash, at0, hc1, hc2]
    | cons d u => simp [to_option, substr, lit_dashdash, at0, hc1, hc2]

theorem rfind_cons_ne (x c : Char) (s : text) (h : x ≠ c) :
    rfind (x :: s) c = (rfind s c).map (· + 1) := by
  cases hr : rfind s c <;> simp [rfind, hr, h]

theorem head_take_ne (s : text) (k : Nat) (c : Char) (hs : s.head? ≠ some c) :
    (s.take k).head? ≠ some c := by
  cases s with
  | nil => simp
  | cons x t =>
    cases k with
    | zero => simp
    | succ n => simpa using hs

theorem split_option_dashdash (s : text) :
    split_option ('-' :: '-' :: s) = name_and_value s := by
  unfold split_option name_and_value
  rw [rfind_cons_ne _ _ _ (by decide), rfind_cons_ne _ _ _ (by decide)]
  cases hr : rfind s '=' with
  | none => simp [to_option_dashdash]
  | some k => simp [substr, substr_from, to_value, to_option_dashdash]

theorem split_option_dash (s : text) (hs : s.head? ≠ some '-') :
    split_option ('-' :: s) = name_and_value s := by
  unfold split_option name_and_value
  rw [rfind_cons_ne _ _ _ (by decide)]
  cases hr : rfind s '=' with
  | none => simp [to_option_dash s hs]
  | some k =>
    simp [substr, substr_from, to_value, to_option_dash _ (head_take_ne s k '-' hs)]

theorem split_option_plus (s : text) :
    split_option ('+' :: s) = name_and_value s := by
  unfold split_option name_and_value
  rw [rfind_cons_ne _ _ _ (by decide)]
  cases hr : rfind s '=' with
  | none => simp [to_option_plus]
  | some k => simp [substr, substr_from, to_value, to_option_plus]

theorem split_option_start (p s : text) (hp : p ∈ option_starts) (hs : s.head? ≠ some '-') :
    split_option (p ++ s) = name_and_value s := by
  simp only [option_starts, List.mem_cons, List.mem_singleton, List.not_mem_nil, or_false] at hp
  rcases hp with rfl | rfl | rfl
  · exact split_option_dashdash s
  · exact split_option_dash s hs
  · exact split_option_plus s

theorem loop_append (st : loop_state) (xs ys : texts) :
    split_arguments_loop st (xs ++ ys) =
      match split_arguments_loop st xs with
      | .returns st1 => split_arguments_loop st1 ys
      | .runtime_error what => .runtime_error what
      | .logic_error what => .logic_error what
      | .undefined => .undefined := by
  induction xs generalizing st with
  | nil => simp [split_arguments_loop]
  | cons x t ih =>
    simp only [List.cons_append, split_arguments_loop]
    cases hb : split_arguments_body st x <;> simp [ih]

theorem option_chain_rel {α β : Type} (R : α → β → Prop) (opt : text)
    (a0 a1 a2 a3 a4 a5 a6 a7 a8 a9 a10 a11 a12 a13 : α)
    (b0 b1 b2 b3 b4 b5 b6 b7 b8 b9 b10 b11 b12 b13 : β)
    (h0 : opt = "" → R a0 b0) (h1 : R a1 b1) (h2 : R a2 b2) (h3 : R a3 b3) (h4 : R a4 b4)
    (h5 : R a5 b5) (h6 : R a6 b6) (h7 : R a7 b7) (h8 : R a8 b8) (h9 : R a9 b9)
    (h10 : R a10 b10) (h11 : R a11 b11) (h12 : R a12 b12) (h13 : R a13 b13) :
    R (option_chain opt a0 a1 a2 a3 a4 a5 a6 a7 a8 a9 a10 a11 a12 a13)
      (option_chain opt b0 b1 b2 b3 b4 b5 b6 b7 b8 b9 b10 b11 b12 b13) := by
  unfold option_chain
  by_cases c0 : opt = ""
  · rw [if_pos c0, if_pos c0]; exact h0 c0
  rw [if_neg c0, if_neg c0]
  by_cases c1 : opt = "h" ∨ "help" = opt
  · rw [if_pos c1, if_pos c1]; exact h1
  rw [if_neg c1, if_neg c1]
  by_cases c2 : opt = "v" ∨ "verbose" = opt
  · rw [if_pos c2, if_pos c2]; exact h2
  rw [if_neg c2, if_neg c2]
  by_cases c3 : "version" = opt
  · rw [if_pos c3, if_pos c3]; exact h3
  rw [if_neg c3, if_neg c3]
  by_cases c4 : opt = "a" ∨ "author" = opt
  · rw [if_pos c4, if_pos c4]; exact h4
  rw [if_neg c4, if_neg c4]
  by_cases c5 : opt = "f" ∨ "frequency" = opt
  · rw [if_pos c5, if_pos c5]; exact h5
  rw [if_neg c5, if_neg c5]
  by_cases c6 : opt = "g" ∨ "ignorecase" = opt
  · rw [if_pos c6, if_pos c6]; exact h6
  rw [if_neg c6, if_neg c6]
  by_cases c7 : opt = "l" ∨ "lowercase" = opt
  · rw [if_pos c7, if_pos c7]; exact h7
  rw [if_neg c7, if_neg c7]
  by_cases c8 : opt = "r" ∨ "reverse" = opt
  · rw [if_pos c8, if_pos c8]; exact h8
  rw [if_neg c8, if_neg c8]
  by_cases c9 : opt = "s" ∨ "summary" = opt
  · rw [if_pos c9, if_pos c9]; exact h9
  rw [if_neg c9, if_neg c9]
  by_cases c10 : opt = "i" ∨ "input" = opt
  · rw [if_pos c10, if_pos c10]; exact h10
  rw [if_neg c10, if_neg c10]
  by_cases c11 : opt = "o" ∨ "output" = opt
  · rw [if_pos c11, if_pos c11]; exact h11
  rw [if_neg c11, if_neg c11]
  by_cases c12 : opt = "k" ∨ "keywords" = opt
  · rw [if_pos c12, if_pos c12]; exact h12
  rw [if_neg c12, if_neg c12]
  exact h13

theorem option_chain_cases {α : Type} (P : α → Prop) (opt : text)
    (a0 a1 a2 a3 a4 a5 a6 a7 a8 a9 a10 a11 a12 a13 : α)
    (h0 : opt = "" → P a0) (h1 : P a1) (h2 : P a2) (h3 : P a3) (h4 : P a4) (h5 : P a5)
    (h6 : P a6) (h7 : P a7) (h8 : P a8) (h9 : P a9) (h10 : P a10) (h11 : P a11)
    (h12 : P a12) (h13 : P a13) :
    P (option_chain opt a0 a1 a2 a3 a4 a5 a6 a7 a8 a9 a10 a11 a12 a13) :=
  option_chain_rel (fun a (_ : Unit) => P a) opt a0 a1 a2 a3 a4 a5 a6 a7 a8 a9 a10 a11 a12 a13
    () () () () () () () () () () () () () () h0 h1 h2 h3 h4 h5 h6 h7 h8 h9 h10 h11 h12 h13

theorem option_chain_unrecognised {α : Type} (opt : text)
    (a0 a1 a2 a3 a4 a5 a6 a7 a8 a9 a10 a11 a12 u1 u2 : α) :
    option_chain opt a0 a1 a2 a3 a4 a5 a6 a7 a8 a9 a10 a11 a12 u1 =
      option_chain opt a0 a1 a2 a3 a4 a5 a6 a7 a8 a9 a10 a11 a12 u2 ∨
    (option_chain opt a0 a1 a2 a3 a4 a5 a6 a7 a8 a9 a10 a11 a12 u1 = u1 ∧
      option_chain opt a0 a1 a2 a3 a4 a5 a6 a7 a8 a9 a10 a11 a12 u2 = u2) :=
  option_chain_rel (fun x y => x = y ∨ (x = u1 ∧ y = u2)) opt
    a0 a1 a2 a3 a4 a5 a6 a7 a8 a9 a10 a11 a12 u1 a0 a1 a2 a3 a4 a5 a6 a7 a8 a9 a10 a11 a12 u2
    (fun _ => Or.inl rfl) (Or.inl rfl) (Or.inl rfl) (Or.inl rfl) (Or.inl rfl) (Or.inl rfl)
    (Or.inl rfl) (Or.inl rfl) (Or.inl rfl) (Or.inl rfl) (Or.inl rfl) (Or.inl rfl) (Or.inl rfl)
    (Or.inr ⟨rfl, rfl⟩)

theorem body_in_options (st : loop_state) (arg opt : text) (val : maybe_text)
    (hin : st.in_options = true) (hso : split_option arg = (some opt, val)) :
    split_arguments_body st arg =
      option_chain opt
        (.returns { st with in_options := false })
        (.returns { st with option := { st.option with help := true } })
        (.returns { st with option := { st.option with verbose := true } })
        (.returns { st with option := { st.option with version := true } })
        (.returns { st with option := { st.option with author := true } })
        (.returns { st with option := { st.option with frequency := true } })
        (.returns { st with option := { st.option with ignorecase := true } })
        (.returns { st with option := { st.option with lowercase := true } })
        (.returns { st with option := { st.option with reverse := true } })
        (.returns { st with option := { st.option with summary := true } })
        (deref val fun v => .returns { st with option := { st.option with input := v } })
        (deref val fun v => .returns { st with option := { st.option with output := v } })
        (deref val fun v => .returns { st with option := { st.option with keywords := v } })
        (.runtime_error ("unrecognised option '" ++ arg ++ "'")) := by
  unfold split_arguments_body
  rw [if_pos hin, hso]
  rfl

theorem body_file (st : loop_state) (arg : text) (hin : st.in_options = false) :
    split_arguments_body st arg = .returns { st with in_ := st.in_ ++ [arg] } := by
  unfold split_arguments_body
  rw [if_neg (by simp [hin])]

theorem body_first_file (st : loop_state) (arg : text) (hin : st.in_options = true)
    (hname : option_name arg = none) :
    split_arguments_body st arg =
      .returns { st with in_options := false, in_ := st.in_ ++ [arg] } := by
  unfold split_arguments_body
  rw [if_pos hin]
  unfold option_name at hname
  rcases hso : split_option arg with ⟨o, v⟩
  rw [hso] at hname
  cases o with
  | none => rfl
  | some opt => exact absurd hname (by simp)

theorem body_same_option (st : loop_state) (a1 a2 : text) (hin : st.in_options = true)
    (h12 : split_option a1 = split_option a2) (hname : option_name a1 ≠ none) :
    split_arguments_body st a1 = split_arguments_body st a2 ∨
      (split_arguments_body st a1 = .runtime_error ("unrecognised option '" ++ a1 ++ "'") ∧
       split_arguments_body st a2 = .runtime_error ("unrecognised option '" ++ a2 ++ "'")) := by
  unfold option_name at hname
  rcases hso : split_option a1 with ⟨o, v⟩
  rw [hso] at hname
  cases o with
  | none => exact absurd rfl hname
  | some opt =>
    rw [body_in_options st a1 opt v hin hso, body_in_options st a2 opt v hin (h12 ▸ hso)]
    exact option_chain_unrecognised opt _ _ _ _ _ _ _ _ _ _ _ _ _ _ _

theorem body_keeps_in_options (st st1 : loop_state) (a : text) (hin : st.in_options = true)
    (ha : reads_as_option a = true) (hb : split_arguments_body st a = .returns st1) :
    st1.in_options = true := by
  unfold reads_as_option option_name at ha
  rcases hso : split_option a with ⟨o, v⟩
  rw [hso] at ha
  cases o with
  | none => simp at ha
  | some opt =>
    have hne : opt ≠ [] := by simpa [String.toList] using ha
    rw [body_in_options st a opt v hin hso] at hb
    revert hb
    apply option_chain_cases (fun r => r = outcome.returns st1 → st1.in_options = true)
    · exact fun h => absurd h hne
    all_goals first
      | (intro h; cases h; exact hin)
      | (intro h; cases v <;> simp only [deref] at h <;> cases h; exact hin)
      | (intro h; cases h)

theorem loop_keeps_in_options (pre : texts) (st st1 : loop_state) (hin : st.in_options = true)
    (hpre : ∀ a ∈ pre, reads_as_option a = true)
    (hl : split_arguments_loop st pre = .returns st1) : st1.in_options = true := by
  induction pre generalizing st with
  | nil =>
    simp only [split_arguments_loop, outcome.returns.injEq] at hl
    exact hl ▸ hin
  | cons x t ih =>
    simp only [split_arguments_loop] at hl
    cases hb : split_arguments_body st x with
    | returns st2 =>
      rw [hb] at hl
      exact ih st2 (body_keeps_in_options st st2 x hin (hpre x (by simp)) hb)
        (fun a ha => hpre a (by simp [ha])) hl
    | runtime_error w => rw [hb] at hl; simp at hl
    | logic_error w => rw [hb] at hl; simp at hl
    | undefined => rw [hb] at hl; simp at hl

theorem option_chain_help {α : Type} (opt : text) (h : opt = "h" ∨ "help" = opt)
    (a0 a1 a2 a3 a4 a5 a6 a7 a8 a9 a10 a11 a12 a13 : α) :
    option_chain opt a0 a1 a2 a3 a4 a5 a6 a7 a8 a9 a10 a11 a12 a13 = a1 := by
  rcases h with rfl | rfl <;> rfl

theorem option_chain_ignorecase {α : Type} (opt : text) (h : opt = "g" ∨ "ignorecase" = opt)
    (a0 a1 a2 a3 a4 a5 a6 a7 a8 a9 a10 a11 a12 a13 : α) :
    option_chain opt a0 a1 a2 a3 a4 a5 a6 a7 a8 a9 a10 a11 a12 a13 = a6 := by
  rcases h with rfl | rfl <;> rfl

/-- The loop body never clears the help flag or the ignorecase flag. -/
theorem body_keeps_flags (st st1 : loop_state) (a : text)
    (hb : split_arguments_body st a = .returns st1) :
    (st.option.help = true → st1.option.help = true) ∧
      (st.option.ignorecase = true → st1.option.ignorecase = true) := by
  cases hin : st.in_options with
  | false =>
    rw [body_file st a hin] at hb
    cases hb
    exact ⟨id, id⟩
  | true =>
    rcases hso : split_option a with ⟨o, v⟩
    cases o with
    | none =>
      rw [body_first_file st a hin (by simp [option_name, hso])] at hb
      cases hb
      exact ⟨id, id⟩
    | some opt =>
      rw [body_in_options st a opt v hin hso] at hb
      revert hb
      apply option_chain_cases (fun r => r = outcome.returns st1 →
        (st.option.help = true → st1.option.help = true) ∧
          (st.option.ignorecase = true → st1.option.ignorecase = true))
      all_goals first
        | (intro _ h; cases h; exact ⟨id, id⟩)
        | (intro h; cases h; exact ⟨id, id⟩)
        | (intro h; cases h; exact ⟨fun _ => rfl, id⟩)
        | (intro h; cases h; exact ⟨id, fun _ => rfl⟩)
        | (intro h; cases v <;> simp only [deref] at h <;> cases h; exact ⟨id, id⟩)
        | (intro h; cases h)

theorem loop_keeps_flags (xs : texts) (st st1 : loop_state)
    (hl : split_arguments_loop st xs = .returns st1) :
    (st.option.help = true → st1.option.help = true) ∧
      (st.option.ignorecase = true → st1.option.ignorecase = true) := by
  induction xs generalizing st with
  | nil =>
    simp only [split_arguments_loop, outcome.returns.injEq] at hl
    subst hl
    exact ⟨id, id⟩
  | cons x t ih =>
    simp only [split_arguments_loop] at hl
    cases hb : split_arguments_body st x with
    | returns st2 =>
      rw [hb] at hl
      have h1 := body_keeps_flags st st2 x hb
      have h2 := ih st2 hl
      exact ⟨fun h => h2.1 (h1.1 h), fun h => h2.2 (h1.2 h)⟩
    | runtime_error w => rw [hb] at hl; simp at hl
    | logic_error w => rw [hb] at hl; simp at hl
    | undefined => rw [hb] at hl; simp at hl

/-- The loop on `pre ++ a :: post`, when it completes and `pre` holds options
only: it completes on `pre` in option mode, on `a` from there, and on `post`. -/
theorem loop_split (pre post : texts) (a : text) (st : loop_state)
    (hpre : ∀ x ∈ pre, reads_as_option x = true)
    (hl : split_arguments_loop {} (pre ++ a :: post) = .returns st) :
    ∃ st1 st2, split_arguments_loop {} pre = .returns st1 ∧ st1.in_options = true ∧
      split_arguments_body st1 a = .returns st2 ∧
      split_arguments_loop st2 post = .returns st := by
  rw [loop_append] at hl
  cases h1 : split_arguments_loop {} pre with
  | returns st1 =>
    rw [h1] at hl
    simp only [split_arguments_loop] at hl
    cases h2 : split_arguments_body st1 a with
    | returns st2 =>
      rw [h2] at hl
      exact ⟨st1, st2, rfl, loop_keeps_in_options pre {} st1 rfl hpre h1, h2, hl⟩
    | runtime_error w => rw [h2] at hl; simp at hl
    | logic_error w => rw [h2] at hl; simp at hl
    | undefined => rw [h2] at hl; simp at hl
  | runtime_error w => rw [h1] at hl; simp at hl
  | logic_error w => rw [h1] at hl; simp at hl
  | undefined => rw [h1] at hl; simp at hl

theorem loop_sets_ignorecase (pre post : texts) (g : text) (st : loop_state)
    (hpre : ∀ x ∈ pre, reads_as_option x = true)
    (hg : option_name g = some ("g" : text) ∨ option_name g = some ("ignorecase" : text))
    (hl : split_arguments_loop {} (pre ++ g :: post) = .returns st) :
    st.option.ignorecase = true := by
  obtain ⟨st1, st2, _, hin, hb, hpost⟩ := loop_split pre post g st hpre hl
  rcases hso : split_option g with ⟨o, v⟩
  have ho : o = some ("g" : text) ∨ o = some ("ignorecase" : text) := by
    simpa [option_name, hso] using hg
  have hopt : ∃ opt, o = some opt ∧ (opt = "g" ∨ "ignorecase" = opt) := by
    rcases ho with rfl | rfl
    · exact ⟨_, rfl, Or.inl rfl⟩
    · exact ⟨_, rfl, Or.inr rfl⟩
  obtain ⟨opt, rfl, hopt⟩ := hopt
  rw [body_in_options st1 g opt v hin hso, option_chain_ignorecase opt hopt] at hb
  cases hb
  exact (loop_keeps_flags post _ st hpost).2 rfl

theorem loop_sets_help (pre post : texts) (h : text) (st : loop_state)
    (hpre : ∀ x ∈ pre, reads_as_option x = true)
    (hh : option_name h = some ("h" : text) ∨ option_name h = some ("help" : text))
    (hl : split_arguments_loop {} (pre ++ h :: post) = .returns st) :
    st.option.help = true := by
  obtain ⟨st1, st2, _, hin, hb, hpost⟩ := loop_split pre post h st hpre hl
  rcases hso : split_option h with ⟨o, v⟩
  have ho : o = some ("h" : text) ∨ o = some ("help" : text) := by
    simpa [option_name, hso] using hh
  have hopt : ∃ opt, o = some opt ∧ (opt = "h" ∨ "help" = opt) := by
    rcases ho with rfl | rfl
    · exact ⟨_, rfl, Or.inl rfl⟩
    · exact ⟨_, rfl, Or.inr rfl⟩
  obtain ⟨opt, rfl, hopt⟩ := hopt
  rw [body_in_options st1 h opt v hin hso, option_chain_help opt hopt] at hb
  cases hb
  exact (loop_keeps_flags post _ st hpost).1 rfl

/-- Two argument lists that differ in one argument read as an option, the two
spellings having the same name and value: the loop ends the same way, or both
times on the unrecognised-option error that quotes the spelling. -/
theorem loop_same_option (pre post : texts) (a1 a2 : text)
    (hpre : ∀ x ∈ pre, reads_as_option x = true)
    (h12 : split_option a1 = split_option a2) (hname : option_name a1 ≠ none) :
    split_arguments_loop {} (pre ++ a1 :: post) = split_arguments_loop {} (pre ++ a2 :: post) ∨
      (split_arguments_loop {} (pre ++ a1 :: post) =
          .runtime_error ("unrecognised option '" ++ a1 ++ "'") ∧
        split_arguments_loop {} (pre ++ a2 :: post) =
          .runtime_error ("unrecognised option '" ++ a2 ++ "'")) := by
  rw [loop_append, loop_append]
  cases h1 : split_arguments_loop {} pre with
  | returns st1 =>
    have hin := loop_keeps_in_options pre {} st1 rfl hpre h1
    simp only [split_arguments_loop]
    rcases body_same_option st1 a1 a2 hin h12 hname with h | ⟨h, h'⟩
    · rw [h]; exact Or.inl rfl
    · rw [h, h']; exact Or.inr ⟨rfl, rfl⟩
  | runtime_error w => exact Or.inl rfl
  | logic_error w => exact Or.inl rfl
  | undefined => exact Or.inl rfl

/-! ## Accepted options followed by file names -/

theorem option_name_file (f : text) (h1 : f.head? ≠ some '-') (h2 : f.head? ≠ some '+') :
    option_name f = none := by
  unfold option_name split_option
  cases hr : rfind f '=' with
  | none => exact to_option_none f h1 h2
  | some pos =>
    exact to_option_none _ (head_take_ne f pos '-' h1) (head_take_ne f pos '+' h2)

theorem option_chain_verbose {α : Type} (opt : text) (h : opt = "v" ∨ "verbose" = opt)
    (a0 a1 a2 a3 a4 a5 a6 a7 a8 a9 a10 a11 a12 a13 : α) :
    option_chain opt a0 a1 a2 a3 a4 a5 a6 a7 a8 a9 a10 a11 a12 a13 = a2 := by
  rcases h with rfl | rfl <;> rfl

theorem option_chain_frequency {α : Type} (opt : text) (h : opt = "f" ∨ "frequency" = opt)
    (a0 a1 a2 a3 a4 a5 a6 a7 a8 a9 a10 a11 a12 a13 : α) :
    option_chain opt a0 a1 a2 a3 a4 a5 a6 a7 a8 a9 a10 a11 a12 a13 = a5 := by
  rcases h with rfl | rfl <;> rfl

theorem option_chain_lowercase {α : Type} (opt : text) (h : opt = "l" ∨ "lowercase" = opt)
    (a0 a1 a2 a3 a4 a5 a6 a7 a8 a9 a10 a11 a12 a13 : α) :
    option_chain opt a0 a1 a2 a3 a4 a5 a6 a7 a8 a9 a10 a11 a12 a13 = a7 := by
  rcases h with rfl | rfl <;> rfl

theorem option_chain_reverse {α : Type} (opt : text) (h : opt = "r" ∨ "reverse" = opt)
    (a0 a1 a2 a3 a4 a5 a6 a7 a8 a9 a10 a11 a12 a13 : α) :
    option_chain opt a0 a1 a2 a3 a4 a5 a6 a7 a8 a9 a10 a11 a12 a13 = a8 := by
  rcases h with rfl | rfl <;> rfl

theorem option_chain_summary {α : Type} (opt : text) (h : opt = "s" ∨ "summary" = opt)
    (a0 a1 a2 a3 a4 a5 a6 a7 a8 a9 a10 a11 a12 a13 : α) :
    option_chain opt a0 a1 a2 a3 a4 a5 a6 a7 a8 a9 a10 a11 a12 a13 = a9 := by
  rcases h with rfl | rfl <;> rfl

theorem option_chain_input {α : Type} (opt : text) (h : opt = "i" ∨ "input" = opt)
    (a0 a1 a2 a3 a4 a5 a6 a7 a8 a9 a10 a11 a12 a13 : α) :
    option_chain opt a0 a1 a2 a3 a4 a5 a6 a7 a8 a9 a10 a11 a12 a13 = a10 := by
  rcases h with rfl | rfl <;> rfl

theorem option_chain_output {α : Type} (opt : text) (h : opt = "o" ∨ "output" = opt)
    (a0 a1 a2 a3 a4 a5 a6 a7 a8 a9 a10 a11 a12 a13 : α) :
    option_chain opt a0 a1 a2 a3 a4 a5 a6 a7 a8 a9 a10 a11 a12 a13 = a11 := by
  rcases h with rfl | rfl <;> rfl

theorem option_chain_keywords {α : Type} (opt : text) (h : opt = "k" ∨ "keywords" = opt)
    (a0 a1 a2 a3 a4 a5 a6 a7 a8 a9 a10 a11 a12 a13 : α) :
    option_chain opt a0 a1 a2 a3 a4 a5 a6 a7 a8 a9 a10 a11 a12 a13 = a12 := by
  rcases h with rfl | rfl <;> rfl

theorem body_accepted (st : loop_state) (a : text) (ha : accepted_option a = true)
    (hst : ready st) :
    ∃ st1, split_arguments_body st a = .returns st1 ∧ ready st1 ∧
      (is_output_option a = false → st1.option.output = st.option.output) := by
  obtain ⟨hin, hno, hh, hau, hve, hig⟩ := hst
  unfold accepted_option at ha
  unfold is_output_option option_name
  rcases hso : split_option a with ⟨o, v⟩
  rw [hso] at ha
  cases o with
  | none => simp at ha
  | some opt =>
    rw [body_in_options st a opt v hin hso]
    simp only [Bool.or_eq_true, Bool.and_eq_true, decide_eq_true_eq, decide_eq_false_iff_not] at ha ⊢
    rcases ha with (((((h | h) | h) | h) | h) | ⟨hv, (h | h) | h⟩)
    · rw [option_chain_verbose opt h]
      exact ⟨_, rfl, ⟨hin, hno, hh, hau, hve, hig⟩, fun _ => rfl⟩
    · rw [option_chain_frequency opt h]
      exact ⟨_, rfl, ⟨hin, hno, hh, hau, hve, hig⟩, fun _ => rfl⟩
    · rw [option_chain_lowercase opt h]
      exact ⟨_, rfl, ⟨hin, hno, hh, hau, hve, hig⟩, fun _ => rfl⟩
    · rw [option_chain_reverse opt h]
      exact ⟨_, rfl, ⟨hin, hno, hh, hau, hve, hig⟩, fun _ => rfl⟩
    · rw [option_chain_summary opt h]
      exact ⟨_, rfl, ⟨hin, hno, hh, hau, hve, hig⟩, fun _ => rfl⟩
    · obtain ⟨w, rfl⟩ := Option.isSome_iff_exists.1 hv
      rw [option_chain_input opt h]
      exact ⟨_, rfl, ⟨hin, hno, hh, hau, hve, hig⟩, fun _ => rfl⟩
    · obtain ⟨w, rfl⟩ := Option.isSome_iff_exists.1 hv
      rw [option_chain_output opt h]
      exact ⟨_, rfl, ⟨hin, hno, hh, hau, hve, hig⟩, fun hn => absurd h hn⟩
    · obtain ⟨w, rfl⟩ := Option.isSome_iff_exists.1 hv
      rw [option_chain_keywords opt h]
      exact ⟨_, rfl, ⟨hin, hno, hh, hau, hve, hig⟩, fun _ => rfl⟩

theorem loop_accepted (opts : texts) (st : loop_state)
    (hopts : ∀ a ∈ opts, accepted_option a = true) (hst : ready st) :
    ∃ st1, split_arguments_loop st opts = .returns st1 ∧ ready st1 ∧
      ((∀ a ∈ opts, is_output_option a = false) → st1.option.output = st.option.output) := by
  induction opts generalizing st with
  | nil => exact ⟨st, rfl, hst, fun _ => rfl⟩
  | cons a t ih =>
    obtain ⟨st1, hb, hr1, ho1⟩ := body_accepted st a (hopts a (by simp)) hst
    obtain ⟨st2, hl, hr2, ho2⟩ := ih st1 (fun x hx => hopts x (by simp [hx])) hr1
    refine ⟨st2, ?_, hr2, ?_⟩
    · simp only [split_arguments_loop, hb, hl]
    · intro hno
      rw [ho2 (fun x hx => hno x (by simp [hx])), ho1 (hno a (by simp))]

theorem loop_inputs (files : texts) (st : loop_state) (hin : st.in_options = false) :
    split_arguments_loop st files = .returns { st with in_ := st.in_ ++ files } := by
  induction files generalizing st with
  | nil => simp [split_arguments_loop]
  | cons f t ih =>
    simp only [split_arguments_loop, body_file st f hin]
    rw [ih { st with in_ := st.in_ ++ [f] } hin]
    simp

theorem loop_files (f : text) (rest : texts) (st : loop_state) (hin : st.in_options = true)
    (h1 : f.head? ≠ some '-') (h2 : f.head? ≠ some '+') :
    split_arguments_loop st (f :: rest) =
      .returns { st with in_options := false, in_ := st.in_ ++ f :: rest } := by
  simp only [split_arguments_loop, body_first_file st f hin (option_name_file f h1 h2)]
  rw [loop_inputs rest _ rfl]
  simp

theorem apply_texts_output (files : texts) (opt : options) (acc : ostream × Int) :
    (files.foldl (apply_texts_body opt) acc).1 =
      acc.1 ++ (files.map fun f => f ++ " => " ++ opt.output ++ ":\n" ++ (apply f opt []).1).flatten := by
  induction files generalizing acc with
  | nil => simp
  | cons f t ih =>
    simp only [List.foldl_cons, List.map_cons, List.flatten_cons]
    rw [ih]
    simp [apply_texts_body, apply, List.append_assoc]

/-! ## Value options whose value holds no `=` -/

theorem rfind_absent (f : text) (c : Char) (hf : c ∉ f) : rfind f c = none := by
  induction f with
  | nil => rfl
  | cons x t ih =>
    have hx : x ≠ c := fun h => hf (by simp [h])
    have ht : c ∉ t := fun h => hf (by simp [h])
    simp [rfind, ih ht, hx]

theorem rfind_last (xs f : text) (c : Char) (hf : c ∉ f) :
    rfind (xs ++ c :: f) c = some xs.length := by
  induction xs with
  | nil => simp [rfind, rfind_absent f c hf]
  | cons x t ih => simp [rfind, ih]

theorem split_option_value (xs opt f : text) (hxs : to_option xs = some opt) (hf : '=' ∉ f) :
    split_option (xs ++ '=' :: f) = (some opt, some f) := by
  unfold split_option
  rw [rfind_last xs f '=' hf]
  simp [substr, substr_from, to_value, hxs]

/-- What holds of value options in the code: a value without `=` is carried
verbatim into its field, every other field keeps its default, and there is no
input. -/
theorem value_without_equals_verbatim (f : text) (hf : '=' ∉ f) :
    split_arguments ["--output=" ++ f] = .returns ({ output := f }, []) ∧
    split_arguments ["-o=" ++ f] = .returns ({ output := f }, []) ∧
    split_arguments ["--input=" ++ f] = .returns ({ input := f }, []) ∧
    split_arguments ["-i=" ++ f] = .returns ({ input := f }, []) ∧
    split_arguments ["--keywords=" ++ f] = .returns ({ keywords := f }, []) ∧
    split_arguments ["-k=" ++ f] = .returns ({ keywords := f }, []) := by
  refine ⟨?_, ?_, ?_, ?_, ?_, ?_⟩
  · have hb := body_in_options {} ("--output=" ++ f) "output" (some f) rfl
      (split_option_value "--output" "output" f rfl hf)
    rw [option_chain_output _ (Or.inr rfl)] at hb
    simp only [split_arguments, split_arguments_loop, hb, deref]
    rfl
  · have hb := body_in_options {} ("-o=" ++ f) "o" (some f) rfl
      (split_option_value "-o" "o" f rfl hf)
    rw [option_chain_output _ (Or.inl rfl)] at hb
    simp only [split_arguments, split_arguments_loop, hb, deref]
    rfl
  · have hb := body_in_options {} ("--input=" ++ f) "input" (some f) rfl
      (split_option_value "--input" "input" f rfl hf)
    rw [option_chain_input _ (Or.inr rfl)] at hb
    simp only [split_arguments, split_arguments_loop, hb, deref]
    rfl
  · have hb := body_in_options {} ("-i=" ++ f) "i" (some f) rfl
      (split_option_value "-i" "i" f rfl hf)
    rw [option_chain_input _ (Or.inl rfl)] at hb
    simp only [split_arguments, split_arguments_loop, hb, deref]
    rfl
  · have hb := body_in_options {} ("--keywords=" ++ f) "keywords" (some f) rfl
      (split_option_value "--keywords" "keywords" f rfl hf)
    rw [option_chain_keywords _ (Or.inr rfl)] at hb
    simp only [split_arguments, split_arguments_loop, hb, deref]
    rfl
  · have hb := body_in_options {} ("-k=" ++ f) "k" (some f) rfl
      (split_option_value "-k" "k" f rfl hf)
    rw [option_chain_keywords _ (Or.inl rfl)] at hb
    simp only [split_arguments, split_arguments_loop, hb, deref]
    rfl

/-- The spellings of the usage text name the options they stand for: `-g`,
`--ignorecase`, `+ignorecase` name ignorecase, and `-h`, `--help`, `+help`
name help. -/
theorem usage_spellings :
    option_name "-g" = some ("g" : text) ∧
    option_name "--ignorecase" = some ("ignorecase" : text) ∧
    option_name "+ignorecase" = some ("ignorecase" : text) ∧
    option_name "-h" = some ("h" : text) ∧
    option_name "--help" = some ("help" : text) ∧
    option_name "+help" = some ("help" : text) := by
  decide

/-! ## The claims -/

/-- C1 (the code does not do this): `run` on the arguments `--summary
--frequency` and no file name never reads standard input and writes no report;
it writes the one-line usage of `nofile` and returns `EXIT_SUCCESS`. -/
theorem run_summary_frequency_prints_nofile (b : build) (program_name : text) (os : ostream) :
    run b program_name ["--summary", "--frequency"] os =
      some (os ++ "\nUsage: " ++ program_name ++ " [option...] [file...]\n", EXIT_SUCCESS) := by
  rfl

/-- C2: when an ignorecase option (`g` or `ignorecase` behind any prefix)
stands among the options and the option loop completes (every other option is
recognised and every value option has its value), `split_arguments` throws the
logic error and `run` writes exactly the one error line and returns
`EXIT_FAILURE`, whatever else is on the command line. -/
theorem ignorecase_rejected (b : build) (program_name : text) (os : ostream)
    (pre post : texts) (g : text)
    (hpre : ∀ x ∈ pre, reads_as_option x = true)
    (hg : option_name g = some ("g" : text) ∨ option_name g = some ("ignorecase" : text))
    (hloop : ∃ st, split_arguments_loop {} (pre ++ g :: post) = .returns st) :
    split_arguments (pre ++ g :: post) =
        .logic_error "Error: option --ignorecase is not yet supported" ∧
      run b program_name (pre ++ g :: post) os =
        some (os ++ program_name ++
          ": Error: option --ignorecase is not yet supported (try option --help).\n",
          EXIT_FAILURE) := by
  obtain ⟨st, hl⟩ := hloop
  have hi := loop_sets_ignorecase pre post g st hpre hg hl
  have hs : split_arguments (pre ++ g :: post) =
      .logic_error "Error: option --ignorecase is not yet supported" := by
    unfold split_arguments
    rw [hl]
    simp only [process_options, hi, if_true]
    rfl
  refine ⟨hs, ?_⟩
  unfold run
  rw [hs]
  simp [String.toList]

theorem ignorecase_rejected_witness :
    (∀ x ∈ (["-s", "--output=out.txt"] : texts), reads_as_option x = true) ∧
    (option_name "--ignorecase" = some ("g" : text) ∨
      option_name "--ignorecase" = some ("ignorecase" : text)) ∧
    (∃ st, split_arguments_loop {}
      ((["-s", "--output=out.txt"] : texts) ++ ("--ignorecase" : text) :: ["--help", "a", "b"]) =
        .returns st) ∧
    split_arguments
      ((["-s", "--output=out.txt"] : texts) ++ ("--ignorecase" : text) :: ["--help", "a", "b"]) =
        .logic_error "Error: option --ignorecase is not yet supported" ∧
    run example_build "wordindex"
      ((["-s", "--output=out.txt"] : texts) ++ ("--ignorecase" : text) :: ["--help", "a", "b"]) [] =
        some (([] : ostream) ++ ("wordindex" : text) ++
          ": Error: option --ignorecase is not yet supported (try option --help).\n",
          EXIT_FAILURE) :=
  ⟨by decide, by decide, ⟨_, rfl⟩,
    ignorecase_rejected example_build "wordindex" [] ["-s", "--output=out.txt"] ["--help", "a", "b"]
      "--ignorecase" (by decide) (by decide) ⟨_, rfl⟩⟩

/-- C3: with ignorecase off, `process_options` returns the shared-output error
exactly when there is more than one input and the output name is not empty,
and no error otherwise; and it leaves every options record as it was. -/
theorem process_options_shared_output (in_ : texts) (opt : options)
    (hg : opt.ignorecase = false) :
    ((process_options in_ opt).1 =
        some ("only specify option '--output=filename' with a single input file" : text) ↔
      (in_.length > 1 ∧ opt.output ≠ [])) ∧
    (¬ (in_.length > 1 ∧ opt.output ≠ []) → (process_options in_ opt).1 = none) ∧
    (∀ (files : texts) (o : options), (process_options files o).2 = o) := by
  have hiff : (in_.length > 1 ∧ ¬ opt.output.isEmpty = true) ↔
      (in_.length > 1 ∧ opt.output ≠ []) := by
    simp [List.isEmpty_iff]
  have hkeep : ∀ (files : texts) (o : options), (process_options files o).2 = o := by
    intro files o
    unfold process_options
    split_ifs <;> rfl
  unfold process_options
  rw [if_neg (by simp [hg])]
  by_cases h1 : in_.length > 1 ∧ ¬ opt.output.isEmpty = true
  · rw [if_pos h1]
    exact ⟨⟨fun _ => hiff.1 h1, fun _ => rfl⟩, fun hn => absurd (hiff.1 h1) hn, hkeep⟩
  · rw [if_neg h1]
    exact ⟨⟨fun h => (by cases h), fun h => absurd (hiff.2 h) h1⟩, fun _ => rfl, hkeep⟩

theorem process_options_shared_output_witness :
    ({ output := "out.txt" } : options).ignorecase = false ∧
    (((process_options ["a", "b"] { output := "out.txt" }).1 =
        some ("only specify option '--output=filename' with a single input file" : text) ↔
      ((["a", "b"] : texts).length > 1 ∧ ({ output := "out.txt" } : options).output ≠ [])) ∧
    (¬ ((["a", "b"] : texts).length > 1 ∧ ({ output := "out.txt" } : options).output ≠ []) →
      (process_options ["a", "b"] { output := "out.txt" }).1 = none) ∧
    (∀ (files : texts) (o : options), (process_options files o).2 = o)) :=
  ⟨rfl, process_options_shared_output ["a", "b"] { output := "out.txt" } rfl⟩

/-- C4: recognised, accepted options followed by at least one file name (none
starting with `-` or `+`; no output option when there are several):
`split_arguments` returns exactly the file names as the input list, in order,
and the output of `run` is, file by file in that order, the header line
`file => output:` followed by the output of `apply` for that file. -/
theorem one_report_per_input (b : build) (program_name : text) (os : ostream)
    (opts files : texts)
    (hopts : ∀ a ∈ opts, accepted_option a = true)
    (hfiles : ∀ f ∈ files, f.head? ≠ some '-' ∧ f.head? ≠ some '+')
    (hn : 1 ≤ files.length)
    (hout : 1 < files.length → ∀ a ∈ opts, is_output_option a = false) :
    ∃ option : options,
      split_arguments (opts ++ files) = .returns (option, files) ∧
      (run b program_name (opts ++ files) os).map Prod.fst =
        some (os ++ (files.map fun f =>
          f ++ " => " ++ option.output ++ ":\n" ++ (apply f option []).1).flatten) := by
  obtain ⟨st, hl, ⟨hin, hno, hh, hau, hve, hig⟩, hkeep⟩ :=
    loop_accepted opts {} hopts ⟨rfl, rfl, rfl, rfl, rfl, rfl⟩
  cases files with
  | nil => simp at hn
  | cons f rest =>
    have hf := hfiles f (by simp)
    have hloop : split_arguments_loop {} (opts ++ f :: rest) =
        .returns { st with in_options := false, in_ := f :: rest } := by
      rw [loop_append, hl]
      simp only
      rw [loop_files f rest st hin hf.1 hf.2, hno]
      rfl
    have hsplit : split_arguments (opts ++ f :: rest) = .returns (st.option, f :: rest) := by
      unfold split_arguments
      rw [hloop]
      simp only [process_options, hig]
      by_cases hmany : 1 < (f :: rest).length
      · have hempty : st.option.output = [] := hkeep (hout hmany)
        simp [hempty]
      · have : ¬ ((f :: rest).length > 1 ∧ ¬ st.option.output.isEmpty = true) :=
          fun h => hmany h.1
        simp only [Bool.false_eq_true, if_false, this]
    refine ⟨st.option, hsplit, ?_⟩
    unfold run
    rw [hsplit]
    simp only [hh, hau, hve, Bool.false_eq_true, if_false]
    rw [if_neg (by simp)]
    simp only [Option.map_some', apply_texts, apply_texts_output]

theorem one_report_per_input_witness :
    ((∀ a ∈ (["--summary", "-f", "--keywords=stop.txt"] : texts), accepted_option a = true) ∧
      (∀ f ∈ (["a.txt", "b.txt"] : texts), f.head? ≠ some '-' ∧ f.head? ≠ some '+') ∧
      1 ≤ (["a.txt", "b.txt"] : texts).length ∧
      (1 < (["a.txt", "b.txt"] : texts).length →
        ∀ a ∈ (["--summary", "-f", "--keywords=stop.txt"] : texts), is_output_option a = false)) ∧
    ∃ option : options,
      split_arguments ((["--summary", "-f", "--keywords=stop.txt"] : texts) ++ (["a.txt", "b.txt"] : texts)) =
        .returns (option, ["a.txt", "b.txt"]) ∧
      (run example_build "wordindex"
          ((["--summary", "-f", "--keywords=stop.txt"] : texts) ++ (["a.txt", "b.txt"] : texts)) []).map
          Prod.fst =
        some (([] : ostream) ++ ((["a.txt", "b.txt"] : texts).map fun f =>
          f ++ " => " ++ option.output ++ ":\n" ++ (apply f option []).1).flatten) :=
  ⟨⟨by decide, by decide, by decide, fun _ => by decide⟩,
    one_report_per_input example_build "wordindex" [] ["--summary", "-f", "--keywords=stop.txt"]
      ["a.txt", "b.txt"] (by decide) (by decide) (by decide) (fun _ => by decide)⟩

/-- C5 (the code does not do this): a file name that contains `=` is not
carried; `split_option` cuts at the last `=`, so the option name is read as
`output=a` and the argument is refused as unrecognised. -/
theorem output_value_with_equals_refused :
    split_arguments ["--output=a=b"] = .runtime_error "unrecognised option '--output=a=b'" ∧
    split_arguments ["-o=a=b"] = .runtime_error "unrecognised option '-o=a=b'" ∧
    split_arguments ["--input=a=b"] = .runtime_error "unrecognised option '--input=a=b'" ∧
    split_arguments ["--keywords=a=b"] =
      .runtime_error "unrecognised option '--keywords=a=b'" := by
  decide

/-- C6, as the code has it: behind any of the prefixes `--`, `-`, `+` the same
name `s` (not starting with `-`) is read, an argument starting with neither
`-` nor `+` names no option, and replacing one prefix spelling by another in an
argument that is read as an option (every argument before it is an option too)
leaves the result of `split_arguments` unchanged, except that an
unrecognised-option error quotes the spelling used. -/
theorem spelling_among_options (s p1 p2 : text) (pre post : texts)
    (hs : s.head? ≠ some '-') (hp1 : p1 ∈ option_starts) (hp2 : p2 ∈ option_starts)
    (hpre : ∀ x ∈ pre, reads_as_option x = true) :
    (to_option ("--" ++ s) = some s ∧ to_option ("-" ++ s) = some s ∧
      to_option ("+" ++ s) = some s) ∧
    (∀ arg : text, arg.head? ≠ some '-' → arg.head? ≠ some '+' → to_option arg = none) ∧
    (split_arguments (pre ++ (p1 ++ s) :: post) = split_arguments (pre ++ (p2 ++ s) :: post) ∨
      (split_arguments (pre ++ (p1 ++ s) :: post) =
          .runtime_error ("unrecognised option '" ++ (p1 ++ s) ++ "'") ∧
        split_arguments (pre ++ (p2 ++ s) :: post) =
          .runtime_error ("unrecognised option '" ++ (p2 ++ s) ++ "'"))) := by
  refine ⟨⟨to_option_dashdash s, to_option_dash s hs, to_option_plus s⟩, to_option_none, ?_⟩
  have h1 := split_option_start p1 s hp1 hs
  have h2 := split_option_start p2 s hp2 hs
  have hname : option_name (p1 ++ s) ≠ none := by
    unfold option_name
    rw [h1]
    unfold name_and_value
    cases rfind s '=' <;> simp
  unfold split_arguments
  rcases loop_same_option pre post (p1 ++ s) (p2 ++ s) hpre (h1.trans h2.symm) hname with
    h | ⟨h, h'⟩
  · rw [h]; exact Or.inl rfl
  · rw [h, h']; exact Or.inr ⟨rfl, rfl⟩

theorem spelling_among_options_witness :
    (("help" : text).head? ≠ some '-' ∧ ("--" : text) ∈ option_starts ∧ ("+" : text) ∈ option_starts ∧
      ∀ x ∈ (["-s", "--output=out.txt"] : texts), reads_as_option x = true) ∧
    ((to_option ("--" ++ ("help" : text)) = some ("help" : text) ∧
        to_option ("-" ++ ("help" : text)) = some ("help" : text) ∧
        to_option ("+" ++ ("help" : text)) = some ("help" : text)) ∧
      (∀ arg : text, arg.head? ≠ some '-' → arg.head? ≠ some '+' → to_option arg = none) ∧
      (split_arguments ((["-s", "--output=out.txt"] : texts) ++
            (("--" : text) ++ ("help" : text)) :: ["a"]) =
          split_arguments ((["-s", "--output=out.txt"] : texts) ++
            (("+" : text) ++ ("help" : text)) :: ["a"]) ∨
        (split_arguments ((["-s", "--output=out.txt"] : texts) ++
              (("--" : text) ++ ("help" : text)) :: ["a"]) =
            .runtime_error ("unrecognised option '" ++ (("--" : text) ++ ("help" : text)) ++ "'") ∧
          split_arguments ((["-s", "--output=out.txt"] : texts) ++
              (("+" : text) ++ ("help" : text)) :: ["a"]) =
            .runtime_error
              ("unrecognised option '" ++ (("+" : text) ++ ("help" : text)) ++ "'")))) :=
  ⟨⟨by decide, by decide, by decide, by decide⟩,
    spelling_among_options "help" "--" "+" ["-s", "--output=out.txt"] ["a"]
      (by decide) (by decide) (by decide) (by decide)⟩

/-- C6 as stated fails: behind a file name an argument is an input, kept as
written, so changing the prefix of `-s` to `--` there changes the inputs that
`split_arguments` returns; neither result is an unrecognised-option error. -/
theorem spelling_after_file_changes_inputs :
    ("s" : text).head? ≠ some '-' ∧
    split_arguments ["f", "-s"] = .returns ({}, ["f", "-s"]) ∧
    split_arguments ["f", "--s"] = .returns ({}, ["f", "--s"]) ∧
    split_arguments ["f", "-s"] ≠ split_arguments ["f", "--s"] := by
  decide

/-- C7, as the code has it: when a help option stands among the options and
`split_arguments` returns (every option is recognised, every value option has
its value, ignorecase is not set, and there is no output name with several
inputs), `run` writes exactly the usage text and returns `EXIT_SUCCESS`,
whatever author, version, other options and file names are present. -/
theorem help_displayed (b : build) (program_name : text) (os : ostream)
    (pre post : texts) (h : text)
    (hpre : ∀ x ∈ pre, reads_as_option x = true)
    (hh : option_name h = some ("h" : text) ∨ option_name h = some ("help" : text))
    (hok : ∃ r, split_arguments (pre ++ h :: post) = .returns r) :
    run b program_name (pre ++ h :: post) os = some (usage program_name os) ∧
      (usage program_name os).2 = EXIT_SUCCESS := by
  refine ⟨?_, rfl⟩
  obtain ⟨r, hr⟩ := hok
  have hhelp : r.1.help = true := by
    unfold split_arguments at hr
    cases hl : split_arguments_loop {} (pre ++ h :: post) with
    | returns st =>
      rw [hl] at hr
      simp only at hr
      have hst := loop_sets_help pre post h st hpre hh hl
      have hkeep : (process_options st.in_ st.option).2 = st.option := by
        unfold process_options
        split_ifs <;> rfl
      rcases hp : process_options st.in_ st.option with ⟨e, o⟩
      rw [hp] at hr hkeep
      cases e with
      | none =>
        simp only [outcome.returns.injEq] at hr
        subst hr
        simp only at hkeep ⊢
        rw [hkeep]
        exact hst
      | some m => simp at hr
    | runtime_error w => rw [hl] at hr; simp at hr
    | logic_error w => rw [hl] at hr; simp at hr
    | undefined => rw [hl] at hr; simp at hr
  unfold run
  rw [hr]
  obtain ⟨option, in_⟩ := r
  simp only at hhelp
  simp only [hhelp, if_true]

theorem help_displayed_witness :
    (∀ x ∈ (["--author", "-o=out.txt"] : texts), reads_as_option x = true) ∧
    (option_name "+help" = some ("h" : text) ∨ option_name "+help" = some ("help" : text)) ∧
    (∃ r, split_arguments ((["--author", "-o=out.txt"] : texts) ++ ("+help" : text) ::
      ["--version", "a.txt"]) = .returns r) ∧
    (run example_build "wordindex" ((["--author", "-o=out.txt"] : texts) ++ ("+help" : text) ::
        ["--version", "a.txt"]) [] = some (usage "wordindex" []) ∧
      (usage "wordindex" []).2 = EXIT_SUCCESS) :=
  ⟨by decide, by decide, ⟨_, rfl⟩,
    help_displayed example_build "wordindex" [] ["--author", "-o=out.txt"]
      ["--version", "a.txt"] "+help" (by decide) (by decide) ⟨_, rfl⟩⟩

/-- C7 as stated fails: with a help option first and an unrecognised option
after it, `run` writes the error line and returns `EXIT_FAILURE`; the usage
text is not written. -/
theorem help_before_unrecognised_option_fails :
    (option_name "--help" = some ("help" : text)) ∧
    run example_build "wordindex" ["--help", "--bogus"] [] =
      some (("wordindex: unrecognised option '--bogus' (try option --help).\n" : text),
        EXIT_FAILURE) ∧
    run example_build "wordindex" ["--help", "--bogus"] [] ≠ some (usage "wordindex" []) := by
  refine ⟨by decide, by decide, ?_⟩
  intro hrun
  have h2 := congrArg (fun r => r.map Prod.snd) hrun
  revert h2
  decide

/-- C8 (the code does not do this): a value option written without `=` has no
value, and `split_arguments` dereferences the empty optional. -/
theorem value_option_without_value_undefined :
    split_option "--output" = (some ("output" : text), none) ∧
    split_arguments ["--output"] = .undefined ∧
    split_arguments ["-o"] = .undefined ∧
    split_arguments ["--input"] = .undefined ∧
    split_arguments ["--keywords"] = .undefined ∧
    run example_build "wordindex" ["--output"] [] = none := by
  decide

end prg
